import Mathlib

/-!
Verification of the document evaluation engine of the `calctermpy` desktop
calculator.

The engine lives in `src/src/core/calculator.py` (the "current" tree) and in
`src/old/calculator.py` (the "old" tree).  We shallowly embed the parts of the
engine the claims are about:

* the per-line recalculation loop `recalculate_changed_lines` of the current
  tree (namespace reset, assignment/expression dispatch, per-line error
  isolation, `None` suppression);
* the old tree's statement segmenter `process_multiline_statements`, the block
  executor `execute_multiline_code` and its surrounding recalculation loop;
* the result formatters `format_result` of both trees (float scientific/general
  notation, complex numbers, sequence preview, fallback stringification);
* `delete_variable`, which removes a binding and triggers a full recalculation.

Python's `eval`/`exec` are not repository code; they are modelled by a small
interpreter (tokenizer, recursive-descent expression grammar, statement
executor) for the language fragment the engine's documents exercise:
integer literals, `None`/`True`/`False`, identifiers, `+ - *`, comparisons
(`== != <= >= < >`), parenthesised expressions, function calls, top-level
assignments, and single-level `def` with `return`.  Anything outside the
fragment fails with an error, modelling a Python exception; error message
texts are modelled abstractly (the code only ever prepends `"Error: "` to
`str(e)`).  Python floats are modelled as exact rationals; the concrete float
values appearing in the claims are either exactly representable or round to
the same digit strings as their IEEE-754 counterparts.

All definitions are executable; every concrete evaluation below is checked by
the kernel.
-/

namespace CalcTerm

/-! ## Values, expressions and statements -/

inductive BinOp where
  | add | sub | mul
deriving DecidableEq

inductive CmpOp where
  | eq | ne | le | ge | lt | gt
deriving DecidableEq

mutual
/-- Expressions of the modelled `eval` fragment. -/
inductive Expr where
  | intLit (n : Int)
  | noneLit
  | boolLit (b : Bool)
  | name (s : String)
  | binop (op : BinOp) (a b : Expr)
  | cmp (op : CmpOp) (a b : Expr)
  | call (f : Expr) (args : List Expr)

/-- Statements of the modelled `exec` fragment (block execution). -/
inductive Stmt where
  | exprStmt (e : Expr)
  | assign (x : String) (e : Expr)
  | defStmt (f : String) (params : List String) (body : List Stmt)
  | ret (e : Expr)
end

/-- Python values reachable from the modelled evaluator and formatter.
Floats are modelled as exact rationals, complex numbers as pairs of
rationals. -/
inductive PyVal where
  | none
  | bool (b : Bool)
  | int (n : Int)
  | float (q : ℚ)
  | complex (re im : ℚ)
  | list (xs : List PyVal)
  | str (s : String)
  | closure (params : List String) (body : List Stmt)

def PyVal.isNone : PyVal → Bool
  | .none => true
  | _ => false

/-! ## Namespaces

A Python dict is modelled as a duplicate-free association list; insertion
removes any previous binding of the key, `update` folds insertions of the
right map over the left one (later entries win, as for `dict.update`). -/

abbrev Env : Type := List (String × PyVal)

def envGet (e : Env) (k : String) : Option PyVal :=
  (List.find? (fun p => p.1 == k) e).map (fun p => p.2)

def envSet (e : Env) (k : String) (v : PyVal) : Env :=
  (k, v) :: List.filter (fun p => p.1 != k) e

def envUpdate (e₁ e₂ : Env) : Env :=
  List.foldl (fun acc kv => envSet acc kv.1 kv.2) e₁ e₂

def envDel (e : Env) (k : String) : Env :=
  List.filter (fun p => p.1 != k) e

/-! ## Tokenizer -/

inductive Tok where
  | intTok (n : Nat)
  | ident (s : String)
  | sym (s : String)
deriving DecidableEq

def isIdentStart (c : Char) : Bool := c.isAlpha || c == '_'
def isIdentChar (c : Char) : Bool := c.isAlphanum || c == '_'

def digitsToNat (ds : List Char) : Nat :=
  ds.foldl (fun acc c => acc * 10 + (c.toNat - '0'.toNat)) 0

/-- Fueled tokenizer; one unit of fuel per emitted token or skipped
whitespace character, so `length + 1` fuel always suffices. -/
def tokenizeAux : Nat → List Char → Except String (List Tok)
  | _, [] => .ok []
  | 0, _ :: _ => .error "invalid syntax"
  | fuel + 1, c :: cs =>
    if c.isWhitespace then tokenizeAux fuel cs
    else if c.isDigit then
      let ds := List.takeWhile Char.isDigit (c :: cs)
      let rest := List.dropWhile Char.isDigit (c :: cs)
      (tokenizeAux fuel rest).map (fun ts => .intTok (digitsToNat ds) :: ts)
    else if isIdentStart c then
      let ds := List.takeWhile isIdentChar (c :: cs)
      let rest := List.dropWhile isIdentChar (c :: cs)
      (tokenizeAux fuel rest).map (fun ts => .ident (String.mk ds) :: ts)
    else
      match c, cs with
      | '=', '=' :: cs' => (tokenizeAux fuel cs').map (fun ts => .sym "==" :: ts)
      | '!', '=' :: cs' => (tokenizeAux fuel cs').map (fun ts => .sym "!=" :: ts)
      | '<', '=' :: cs' => (tokenizeAux fuel cs').map (fun ts => .sym "<=" :: ts)
      | '>', '=' :: cs' => (tokenizeAux fuel cs').map (fun ts => .sym ">=" :: ts)
      | '<', _ => (tokenizeAux fuel cs).map (fun ts => .sym "<" :: ts)
      | '>', _ => (tokenizeAux fuel cs).map (fun ts => .sym ">" :: ts)
      | '=', _ => (tokenizeAux fuel cs).map (fun ts => .sym "=" :: ts)
      | '+', _ => (tokenizeAux fuel cs).map (fun ts => .sym "+" :: ts)
      | '-', _ => (tokenizeAux fuel cs).map (fun ts => .sym "-" :: ts)
      | '*', _ => (tokenizeAux fuel cs).map (fun ts => .sym "*" :: ts)
      | '(', _ => (tokenizeAux fuel cs).map (fun ts => .sym "(" :: ts)
      | ')', _ => (tokenizeAux fuel cs).map (fun ts => .sym ")" :: ts)
      | ',', _ => (tokenizeAux fuel cs).map (fun ts => .sym "," :: ts)
      | ':', _ => (tokenizeAux fuel cs).map (fun ts => .sym ":" :: ts)
      | _, _ => .error "invalid syntax"

def tokenize (s : String) : Except String (List Tok) :=
  tokenizeAux (s.length + 1) s.toList

/-! ## Recursive-descent expression grammar

`expr := arith (cmpOp arith)? ; arith := term (('+'|'-') term)* ;
term := postfix ('*' postfix)* ; postfix := atom ('(' args ')')* ;
atom := int | None | True | False | ident | '(' expr ')'`. -/

def cmpOfSym : String → Option CmpOp
  | "==" => some .eq
  | "!=" => some .ne
  | "<=" => some .le
  | ">=" => some .ge
  | "<" => some .lt
  | ">" => some .gt
  | _ => Option.none

mutual
def parseExpr : Nat → List Tok → Except String (Expr × List Tok)
  | 0, _ => .error "invalid syntax"
  | fuel + 1, ts => do
    let (a, ts₁) ← parseArith fuel ts
    match ts₁ with
    | .sym s :: ts₂ =>
      match cmpOfSym s with
      | some op => do
        let (b, ts₃) ← parseArith fuel ts₂
        .ok (.cmp op a b, ts₃)
      | Option.none => .ok (a, ts₁)
    | _ => .ok (a, ts₁)

def parseArith : Nat → List Tok → Except String (Expr × List Tok)
  | 0, _ => .error "invalid syntax"
  | fuel + 1, ts => do
    let (a, ts₁) ← parseTerm fuel ts
    parseArithRest fuel a ts₁

def parseArithRest : Nat → Expr → List Tok → Except String (Expr × List Tok)
  | 0, _, _ => .error "invalid syntax"
  | fuel + 1, a, ts =>
    match ts with
    | .sym "+" :: ts₁ => do
      let (b, ts₂) ← parseTerm fuel ts₁
      parseArithRest fuel (.binop .add a b) ts₂
    | .sym "-" :: ts₁ => do
      let (b, ts₂) ← parseTerm fuel ts₁
      parseArithRest fuel (.binop .sub a b) ts₂
    | _ => .ok (a, ts)

def parseTerm : Nat → List Tok → Except String (Expr × List Tok)
  | 0, _ => .error "invalid syntax"
  | fuel + 1, ts => do
    let (a, ts₁) ← parsePostfix fuel ts
    parseTermRest fuel a ts₁

def parseTermRest : Nat → Expr → List Tok → Except String (Expr × List Tok)
  | 0, _, _ => .error "invalid syntax"
  | fuel + 1, a, ts =>
    match ts with
    | .sym "*" :: ts₁ => do
      let (b, ts₂) ← parsePostfix fuel ts₁
      parseTermRest fuel (.binop .mul a b) ts₂
    | _ => .ok (a, ts)

def parsePostfix : Nat → List Tok → Except String (Expr × List Tok)
  | 0, _ => .error "invalid syntax"
  | fuel + 1, ts => do
    let (a, ts₁) ← parseAtom fuel ts
    parseCalls fuel a ts₁

def parseCalls : Nat → Expr → List Tok → Except String (Expr × List Tok)
  | 0, _, _ => .error "invalid syntax"
  | fuel + 1, a, ts =>
    match ts with
    | .sym "(" :: .sym ")" :: ts₁ => parseCalls fuel (.call a []) ts₁
    | .sym "(" :: ts₁ => do
      let (args, ts₂) ← parseArgs fuel ts₁
      match ts₂ with
      | .sym ")" :: ts₃ => parseCalls fuel (.call a args) ts₃
      | _ => .error "invalid syntax"
    | _ => .ok (a, ts)

def parseArgs : Nat → List Tok → Except String (List Expr × List Tok)
  | 0, _ => .error "invalid syntax"
  | fuel + 1, ts => do
    let (a, ts₁) ← parseExpr fuel ts
    match ts₁ with
    | .sym "," :: ts₂ => do
      let (rest, ts₃) ← parseArgs fuel ts₂
      .ok (a :: rest, ts₃)
    | _ => .ok ([a], ts₁)

def parseAtom : Nat → List Tok → Except String (Expr × List Tok)
  | 0, _ => .error "invalid syntax"
  | fuel + 1, ts =>
    match ts with
    | .intTok n :: ts₁ => .ok (.intLit (Int.ofNat n), ts₁)
    | .ident "None" :: ts₁ => .ok (.noneLit, ts₁)
    | .ident "True" :: ts₁ => .ok (.boolLit true, ts₁)
    | .ident "False" :: ts₁ => .ok (.boolLit false, ts₁)
    | .ident x :: ts₁ => .ok (.name x, ts₁)
    | .sym "(" :: ts₁ => do
      let (a, ts₂) ← parseExpr fuel ts₁
      match ts₂ with
      | .sym ")" :: ts₃ => .ok (a, ts₃)
      | _ => .error "invalid syntax"
    | _ => .error "invalid syntax"
end

/-- Parse a whole token list as one expression; leftover tokens are a syntax
error (e.g. the single `=` of an assignment handed to `eval`). -/
def parseWholeExpr (ts : List Tok) : Except String Expr := do
  let (e, rest) ← parseExpr (8 * ts.length + 16) ts
  match rest with
  | [] => .ok e
  | _ => .error "invalid syntax"

/-! ## Evaluation

`evalExpr g l e` models `eval` with globals `g` and locals `l`: names are
looked up in the locals first, then in the globals (`{"__builtins__": {}}`
contributes nothing).  `execStmts` models `exec` over a (globals, locals)
pair: `def` and assignments bind in the locals, a `return` ends a function
body.  All functions are fueled; exhausting fuel models Python's recursion
limit. -/

def binOpEval : BinOp → PyVal → PyVal → Except String PyVal
  | .add, .int a, .int b => .ok (.int (a + b))
  | .sub, .int a, .int b => .ok (.int (a - b))
  | .mul, .int a, .int b => .ok (.int (a * b))
  | _, _, _ => .error "unsupported operand type(s)"

def cmpOpEval : CmpOp → PyVal → PyVal → Except String PyVal
  | .eq, .int a, .int b => .ok (.bool (a == b))
  | .ne, .int a, .int b => .ok (.bool (a != b))
  | .le, .int a, .int b => .ok (.bool (a ≤ b))
  | .ge, .int a, .int b => .ok (.bool (b ≤ a))
  | .lt, .int a, .int b => .ok (.bool (a < b))
  | .gt, .int a, .int b => .ok (.bool (b < a))
  | _, _, _ => .error "comparison not supported between instances"

mutual
def evalExpr : Nat → Env → Env → Expr → Except String PyVal
  | 0, _, _, _ => .error "maximum recursion depth exceeded"
  | fuel + 1, g, l, e =>
    match e with
    | .intLit n => .ok (.int n)
    | .noneLit => .ok .none
    | .boolLit b => .ok (.bool b)
    | .name x =>
      match envGet l x with
      | some v => .ok v
      | Option.none =>
        match envGet g x with
        | some v => .ok v
        | Option.none => .error ("name '" ++ x ++ "' is not defined")
    | .binop op a b => do
      let va ← evalExpr fuel g l a
      let vb ← evalExpr fuel g l b
      binOpEval op va vb
    | .cmp op a b => do
      let va ← evalExpr fuel g l a
      let vb ← evalExpr fuel g l b
      cmpOpEval op va vb
    | .call f args => do
      let vf ← evalExpr fuel g l f
      let vargs ← evalArgs fuel g l args
      applyFun fuel g vf vargs

def evalArgs : Nat → Env → Env → List Expr → Except String (List PyVal)
  | 0, _, _, _ => .error "maximum recursion depth exceeded"
  | _, _, _, [] => .ok []
  | fuel + 1, g, l, a :: rest => do
    let v ← evalExpr fuel g l a
    let vs ← evalArgs fuel g l rest
    .ok (v :: vs)

/-- Calling a value.  A user function runs its body in a fresh local frame
binding the parameters; names otherwise resolve in the globals (a `def`
executed at the top level of `exec` has the `exec` globals as its
`__globals__`).  Falling off the end of the body returns `None`. -/
def applyFun : Nat → Env → PyVal → List PyVal → Except String PyVal
  | 0, _, _, _ => .error "maximum recursion depth exceeded"
  | fuel + 1, g, vf, vargs =>
    match vf with
    | .closure params body =>
      if params.length == vargs.length then do
        let frame : Env := List.zip params vargs
        let (_, r) ← execStmts fuel g frame body
        .ok (r.getD .none)
      else .error "wrong number of arguments"
    | _ => .error "object is not callable"

def execStmts : Nat → Env → Env → List Stmt → Except String (Env × Option PyVal)
  | 0, _, _, _ => .error "maximum recursion depth exceeded"
  | _, _, l, [] => .ok (l, Option.none)
  | fuel + 1, g, l, s :: rest =>
    match s with
    | .exprStmt e => do
      let _ ← evalExpr fuel g l e
      execStmts fuel g l rest
    | .assign x e => do
      let v ← evalExpr fuel g l e
      execStmts fuel g (envSet l x v) rest
    | .defStmt f params body =>
      execStmts fuel g (envSet l f (.closure params body)) rest
    | .ret e => do
      let v ← evalExpr fuel g l e
      .ok (l, some v)
end

/-- Fuel for evaluation entry points: deep enough for every document in this
development while keeping kernel computations small. -/
def evalFuel : Nat := 64

/-- Model of `eval(s, g, l)`: tokenize, parse one expression, evaluate. -/
def pyEval (g l : Env) (s : String) : Except String PyVal := do
  let ts ← tokenize s
  let e ← parseWholeExpr ts
  evalExpr evalFuel g l e

/-! ## Decimal rendering of numbers

`format_result` renders floats with Python's `%.{p}e` and `%.{p}g` format
specifiers.  We reimplement both exactly over rationals: digit strings are
produced by exact rational arithmetic, rounding ties to even as C `printf`
does on the exact value. -/

def natDigitsAux : Nat → Nat → List Char
  | 0, _ => []
  | fuel + 1, n =>
    if n < 10 then [Char.ofNat ('0'.toNat + n)]
    else natDigitsAux fuel (n / 10) ++ [Char.ofNat ('0'.toNat + n % 10)]

/-- Decimal digits of a natural number, most significant first. -/
def natDigits (n : Nat) : List Char := natDigitsAux (n + 1) n

def natStr (n : Nat) : String := String.mk (natDigits n)

/-- `str` of a Python int: decimal digits, unlimited width, `-` sign. -/
def intStr (n : Int) : String :=
  if n < 0 then "-" ++ natStr (-n).toNat else natStr n.toNat

def padZeros (ds : List Char) (w : Nat) : List Char :=
  List.replicate (w - ds.length) '0' ++ ds

def dropTrailingZeros (ds : List Char) : List Char :=
  (List.dropWhile (fun c => c == '0') ds.reverse).reverse

/-- `10^z` as a rational, for an integer exponent. -/
def qpow10 (z : Int) : ℚ :=
  if 0 ≤ z then ((10 : ℚ) ^ z.toNat) else 1 / ((10 : ℚ) ^ (-z).toNat)

/-- Floor of a nonnegative rational. -/
def qfloorNN (q : ℚ) : Int := q.num / (q.den : Int)

/-- Round a nonnegative rational to the nearest integer, ties to even. -/
def roundHE (q : ℚ) : Int :=
  let f := qfloorNN q
  let r := q - (f : ℚ)
  if r < 1 / 2 then f
  else if 1 / 2 < r then f + 1
  else if f % 2 == 0 then f else f + 1

/-- Least `k` with `q * 10^k ≥ 1`, for `0 < q < 1` (fueled search). -/
def smallExpAux : Nat → ℚ → Nat → Nat
  | 0, _, k => k + 1
  | fuel + 1, q, k => if 1 ≤ q * 10 then k + 1 else smallExpAux fuel (q * 10) (k + 1)

/-- Decimal exponent of a positive rational: the unique `e` with
`10^e ≤ q < 10^(e+1)`. -/
def decExp (q : ℚ) : Int :=
  if 1 ≤ q then ((natDigits (qfloorNN q).toNat).length - 1 : Nat)
  else -(smallExpAux ((natDigits q.den).length + 2) q 0 : Int)

/-- Round positive `a` (with decimal exponent `e`) to `k` significant digits:
returns the digit block as an integer in `[10^(k-1), 10^k)` together with the
possibly bumped exponent (e.g. rounding 9.99 up to 10.0). -/
def normDigits (a : ℚ) (k : Nat) (e : Int) : Int × Int :=
  let m := roundHE (a * qpow10 ((k : Int) - 1 - e))
  if m == (10 : Int) ^ k then ((10 : Int) ^ (k - 1), e + 1) else (m, e)

/-- Exponent suffix of scientific notation: sign and at least two digits,
as printed by Python (`e+12`, `e-05`). -/
def expSuffix (e : Int) : String :=
  (if e < 0 then "-" else "+") ++ String.mk (padZeros (natDigits e.natAbs) 2)

/-- Python `f"{q:.{p}e}"`: scientific notation with `p` digits after the
decimal point. -/
def fmtE (p : Nat) (q : ℚ) : String :=
  if q = 0 then
    "0" ++ (if p = 0 then "" else "." ++ String.mk (List.replicate p '0')) ++ "e+00"
  else
    let sign := if q < 0 then "-" else ""
    let a := |q|
    let me := normDigits a (p + 1) (decExp a)
    let ds := natDigits me.1.toNat
    sign ++ String.mk (ds.take 1)
      ++ (if p = 0 then "" else "." ++ String.mk (ds.drop 1))
      ++ "e" ++ expSuffix me.2

/-- Python `f"{q:.{p}g}"`: general notation with `max p 1` significant
digits, trailing zeros stripped, switching to scientific style when the
decimal exponent falls outside `[-4, max p 1)`. -/
def fmtG (p : Nat) (q : ℚ) : String :=
  let p' := max p 1
  if q = 0 then "0"
  else
    let sign := if q < 0 then "-" else ""
    let a := |q|
    let me := normDigits a p' (decExp a)
    let m := me.1
    let e := me.2
    if -4 ≤ e ∧ e < (p' : Int) then
      let frac : Nat := ((p' : Int) - 1 - e).toNat
      let ip := m / (10 : Int) ^ frac
      let fp := m % (10 : Int) ^ frac
      let fds := dropTrailingZeros (padZeros (natDigits fp.toNat) frac)
      sign ++ natStr ip.toNat ++ (if fds.isEmpty then "" else "." ++ String.mk fds)
    else
      let ds := natDigits m.toNat
      let fds := dropTrailingZeros (ds.drop 1)
      sign ++ String.mk (ds.take 1)
        ++ (if fds.isEmpty then "" else "." ++ String.mk fds)
        ++ "e" ++ expSuffix e

/-- The float arm of `format_result`:
scientific notation for very large or very small magnitudes, `%g`-style
general notation otherwise (both trees, verbatim condition). -/
def fmtFloat (p : Nat) (q : ℚ) : String :=
  if |q| > qpow10 10 ∨ (|q| < qpow10 (-4) ∧ q ≠ 0) then fmtE p q else fmtG p q

/-- Truncating fallback stringification: `str(result)` capped at 200
characters with an ellipsis (the final `else` arm of `format_result`). -/
def fallbackStr (s : String) : String :=
  if s.length > 200 then String.mk (s.toList.take 200) ++ "..." else s

/-- Shallow `str()` of values that reach the fallback arm.  Only `.str` and
`.closure` values can reach it in the old tree; in the current tree a list
would too, so a one-level rendering is provided (no claim exercises it).
Python would print a memory address inside `<function ...>`; it is elided. -/
def pyStrShallow : PyVal → String
  | .none => "None"
  | .bool b => if b then "True" else "False"
  | .int n => intStr n
  | .float _ => "<float>"
  | .complex _ _ => "<complex>"
  | .list _ => "<list>"
  | .str s => s
  | .closure _ _ => "<function>"

def pyStr : PyVal → String
  | .list xs => "[" ++ String.intercalate ", " (xs.map pyStrShallow) ++ "]"
  | v => pyStrShallow v

/-! ## `format_result` of the current tree (`src/src/core/calculator.py`)

The SymPy arm is omitted: SymPy objects are outside the modelled value
space, so no `PyVal` can take that branch.  There is no sequence arm in this
tree; lists fall through to the generic `str` fallback. -/

def formatResultCur (p : Nat) : PyVal → String
  | .none => "None"
  | .bool b => if b then "True" else "False"
  | .int n => intStr n
  | .float q => fmtFloat p q
  | .complex re im =>
    if im = 0 then
      -- `self.format_result(result.real)`: `result.real` is a float, so the
      -- recursive call lands in the float arm.
      fmtFloat p re
    else if re = 0 then fmtG p im ++ "j"
    else "(" ++ fmtG p re ++ (if 0 ≤ im then "+" else "") ++ fmtG p im ++ "j)"
  | v => fallbackStr (pyStr v)

/-! ## `format_result` of the old tree (`src/old/calculator.py`)

Identical to the current tree's, except for the additional sequence arm
(`hasattr(result, '__iter__') and not isinstance(result, str)`) before the
fallback.  `len` and slicing cannot fail on a materialized list, so the
`except: return str(result)` guard around that arm is unreachable here. -/

mutual
def formatResultOld (p : Nat) : PyVal → String
  | .none => "None"
  | .bool b => if b then "True" else "False"
  | .int n => intStr n
  | .float q => fmtFloat p q
  | .complex re im =>
    if im = 0 then fmtFloat p re
    else if re = 0 then fmtG p im ++ "j"
    else "(" ++ fmtG p re ++ (if 0 ≤ im then "+" else "") ++ fmtG p im ++ "j)"
  | .list xs =>
    -- formatting the first three elements equals taking the first three
    -- formatted elements
    if xs.length > 10 then
      "[" ++ String.intercalate ", " ((formatListOld p xs).take 3)
        ++ ", ... (" ++ natStr xs.length ++ " items)]"
    else
      "[" ++ String.intercalate ", " (formatListOld p xs) ++ "]"
  | .str s => fallbackStr s
  | .closure ps body => fallbackStr (pyStr (.closure ps body))

def formatListOld (p : Nat) : List PyVal → List String
  | [] => []
  | v :: vs => formatResultOld p v :: formatListOld p vs
end

/-! ## String helpers shared by both recalculation loops

Everything is defined over the character list of the string, mirroring the
Python `str` methods used by the engine (`strip`, `startswith`, `endswith`,
`in`, `split`).  Python's `strip` also removes `\x0b`/`\x0c`; no engine
input contains them. -/

/-- Python's `s.strip()`. -/
def pyStrip (s : String) : String :=
  String.mk
    ((((s.toList).dropWhile Char.isWhitespace).reverse.dropWhile
        Char.isWhitespace).reverse)

/-- Python's `s.startswith(pre)`. -/
def strStartsWith (s pre : String) : Bool :=
  List.isPrefixOf pre.toList s.toList

/-- Python's `s.endswith(suf)`. -/
def strEndsWith (s suf : String) : Bool :=
  List.isSuffixOf suf.toList s.toList

/-- Python's `c in s` for a single character. -/
def strContainsChar (s : String) (c : Char) : Bool :=
  s.toList.any (fun x => x == c)

def containsSubAux (pat : List Char) : List Char → Bool
  | [] => pat.isEmpty
  | c :: cs => List.isPrefixOf pat (c :: cs) || containsSubAux pat cs

/-- Python's `pat in s` substring test. -/
def containsSub (s pat : String) : Bool := containsSubAux pat.toList s.toList

/-- Python's `s.split(c, 1)`: the text before the first occurrence of `c`
and the text after it (the whole text and `""` when `c` is absent). -/
def splitFirst (s : String) (c : Char) : String × String :=
  let l := s.toList
  (String.mk (List.takeWhile (fun x => x != c) l),
   String.mk ((List.dropWhile (fun x => x != c) l).drop 1))

def splitLinesAux : List Char → List Char → List String
  | acc, [] => [String.mk acc.reverse]
  | acc, c :: cs =>
    if c == '\n' then String.mk acc.reverse :: splitLinesAux [] cs
    else splitLinesAux (c :: acc) cs

/-- Python's `text.split('\n')`. -/
def splitLines (s : String) : List String := splitLinesAux [] s.toList

/-- Blank or comment-only line: skipped without an entry. -/
def lineBlankOrComment (line : String) : Bool :=
  (pyStrip line == "") || strStartsWith (pyStrip line) "#"

def cmpOps : List String := ["==", "!=", "<=", ">="]

def startsWithAny (s : String) (kws : List String) : Bool :=
  kws.any (fun k => strStartsWith s k)

/-! ## The current tree's recalculation loop
(`recalculate_changed_lines`, `src/src/core/calculator.py` lines 467-506) -/

/-- The current tree's assignment dispatch:
`'=' in line and not any(op in line for op in ['==','!=','<=','>='])` —
the comparison operators are looked for anywhere in the whole line. -/
def assignCond (line : String) : Bool :=
  strContainsChar line '=' && !(cmpOps.any (fun op => containsSub line op))

/-- Evaluation outcome of one single-line unit (spec §4.3). -/
inductive Outcome where
  | skip
  | assigned (name : String) (v : PyVal)
  | evaluated (v : PyVal)
  | failed (msg : String)

def evalUnitCur (ns : Env) (line : String) : Outcome :=
  if lineBlankOrComment line then .skip
  else if assignCond line then
    let parts := splitFirst line '='
    match pyEval [] ns (pyStrip parts.2) with
    | .ok v => .assigned (pyStrip parts.1) v
    | .error e => .failed e
  else
    match pyEval [] ns line with
    | .ok v => .evaluated v
    | .error e => .failed e

/-- Namespace/variable updates and the `LineResultMap` entry produced by an
outcome: an assignment binds and shows `name = value`; a plain value is shown
unless it is `None` (silently suppressed); a failure leaves the namespaces
untouched and shows `Error: ...`. -/
def applyOutcomeCur (p : Nat) (ns vars : Env) (o : Outcome) :
    Env × Env × Option String :=
  match o with
  | .skip => (ns, vars, Option.none)
  | .assigned name v =>
    (envSet ns name v, envSet vars name v,
     some (name ++ " = " ++ formatResultCur p v))
  | .evaluated v =>
    (ns, vars, if v.isNone then Option.none else some (formatResultCur p v))
  | .failed msg => (ns, vars, some ("Error: " ++ msg))

def processLineCur (p : Nat) (ns vars : Env) (line : String) :
    Env × Env × Option String :=
  applyOutcomeCur p ns vars (evalUnitCur ns line)

/-- The per-line loop: entries accumulate in line order, each line is
processed with the state produced by the previous ones, and processing never
stops early (exceptions are converted to entries inside `processLineCur`). -/
def recalcAuxCur (p : Nat) : Nat → Env → Env → List String →
    List (Nat × String) × Env × Env
  | _, ns, vars, [] => ([], ns, vars)
  | i, ns, vars, l :: ls =>
    let r := processLineCur p ns vars l
    let rest := recalcAuxCur p (i + 1) r.1 r.2.1 ls
    (match r.2.2 with
     | some s => (i, s) :: rest.1
     | Option.none => rest.1, rest.2)

/-- The engine state of one open document: the immutable base namespace and
the working namespace, variable store, and line-result map rebuilt by each
pass. -/
structure CalcState where
  base : Env
  ns : Env
  vars : Env
  lineResults : List (Nat × String)

/-- `recalculate_changed_lines`: reset the working namespace to a copy of
the base one, clear the variable store and the line results, then process
every line of the document from the top. -/
def recalculate (p : Nat) (st : CalcState) (text : String) : CalcState :=
  let r := recalcAuxCur p 0 st.base [] (splitLines text)
  { base := st.base, ns := r.2.1, vars := r.2.2, lineResults := r.1 }

/-- `delete_variable`: remove the binding from the variable store and the
working namespace, then trigger a full recalculation of the document. -/
def deleteVariable (p : Nat) (st : CalcState) (name : String) (text : String) :
    CalcState :=
  if (envGet st.vars name).isSome then
    recalculate p { st with ns := envDel st.ns name, vars := envDel st.vars name } text
  else st

/-! ## The old tree's statement segmenter
(`process_multiline_statements`, `src/old/calculator.py` lines 2615-2688) -/

/-- One segmented evaluation unit: starting line, joined text, kind. -/
structure ProcItem where
  lineNum : Nat
  code : String
  isMultiline : Bool
deriving DecidableEq

def segKws : List String :=
  ["def ", "class ", "if ", "for ", "while ", "try:", "except", "finally:",
   "with ", "elif ", "else:"]

/-- The line-oriented forward pass: a pending block buffer, its anchor line,
and a colon-count indentation heuristic (`max(0, indent-1)` is `Nat`
subtraction). -/
def processMLAux : Nat → List String → String → Nat → Nat → List ProcItem
  | _, [], cb, bs, _ => if cb != "" then [⟨bs, pyStrip cb, true⟩] else []
  | i, line :: rest, cb, bs, indent =>
    let stripped := pyStrip line
    if stripped == "" || strStartsWith stripped "#" then
      if cb != "" then processMLAux (i + 1) rest (cb ++ line ++ "\n") bs indent
      else ⟨i, line, false⟩ :: processMLAux (i + 1) rest cb bs indent
    else if strEndsWith stripped ":" || startsWithAny stripped segKws || indent > 0 then
      let bs' := if cb = "" then i else bs
      let cb' := cb ++ line ++ "\n"
      let indent' :=
        if strEndsWith stripped ":" then indent + 1
        else if strStartsWith line "    " || strStartsWith line "\t" then indent
        else indent - 1
      if indent' = 0 && !strEndsWith stripped ":" then
        ⟨bs', pyStrip cb', true⟩ :: processMLAux (i + 1) rest "" bs' 0
      else processMLAux (i + 1) rest cb' bs' indent'
    else
      if cb != "" then
        ⟨bs, pyStrip cb, true⟩ :: ⟨i, line, false⟩ ::
          processMLAux (i + 1) rest "" bs indent
      else ⟨i, line, false⟩ :: processMLAux (i + 1) rest cb bs indent

def processMultilineStatements (lines : List String) : List ProcItem :=
  processMLAux 0 lines "" 0 0

/-! ## The old tree's block executor
(`execute_multiline_code`, `src/old/calculator.py` lines 2690-2719)

`compile`/`exec` are modelled by parsing the block into the statement
fragment (top-level assignments and expression statements, plus single-level
`def` whose indented body consists of `return`/assignment/expression lines)
and running `execStmts` with the working namespace as globals and a fresh
locals dict. -/

def parseParamsAux : Nat → List Tok → Except String (List String × List Tok)
  | 0, _ => .error "invalid syntax"
  | fuel + 1, ts =>
    match ts with
    | .sym ")" :: rest => .ok ([], rest)
    | .ident x :: .sym "," :: rest =>
      (parseParamsAux fuel rest).map (fun r => (x :: r.1, r.2))
    | .ident x :: .sym ")" :: rest => .ok ([x], rest)
    | _ => .error "invalid syntax"

def parseSimpleStmt (allowRet : Bool) (line : String) : Except String Stmt := do
  let ts ← tokenize line
  match ts with
  | .ident "return" :: rest =>
    if allowRet then
      match rest with
      | [] => .ok (.ret .noneLit)
      | _ => (parseWholeExpr rest).map .ret
    else .error "invalid syntax"
  | .ident x :: .sym "=" :: rest => (parseWholeExpr rest).map (.assign x)
  | _ => (parseWholeExpr ts).map .exprStmt

def isIndented (l : String) : Bool := strStartsWith l " " || strStartsWith l "\t"

def parseBody : Nat → List String → Except String (List Stmt)
  | _, [] => .ok []
  | 0, _ :: _ => .error "invalid syntax"
  | fuel + 1, line :: rest =>
    if lineBlankOrComment line then parseBody fuel rest
    else do
      let s ← parseSimpleStmt true line
      let ss ← parseBody fuel rest
      .ok (s :: ss)

def parseBlockAux : Nat → List String → Except String (List Stmt)
  | _, [] => .ok []
  | 0, _ :: _ => .error "invalid syntax"
  | fuel + 1, line :: rest =>
    if lineBlankOrComment line then parseBlockAux fuel rest
    else do
      let ts ← tokenize line
      match ts with
      | .ident "def" :: .ident f :: .sym "(" :: ts₁ => do
        let pr ← parseParamsAux (ts₁.length + 1) ts₁
        match pr.2 with
        | [.sym ":"] =>
          let bodyLines := rest.takeWhile (fun l => isIndented l || pyStrip l == "")
          let rest' := rest.dropWhile (fun l => isIndented l || pyStrip l == "")
          let body ← parseBody (bodyLines.length + 1) bodyLines
          let stmts ← parseBlockAux fuel rest'
          .ok (.defStmt f pr.1 body :: stmts)
        | _ => .error "invalid syntax"
      | _ => do
        let s ← parseSimpleStmt false line
        let stmts ← parseBlockAux fuel rest
        .ok (s :: stmts)

def parseBlock (code : String) : Except String (List Stmt) :=
  let ls := splitLines code
  parseBlockAux (ls.length + 1) ls

/-- Keyword test excluding the block's last line from result evaluation. -/
def kwExclLast : List String := segKws ++ ["return ", "yield ", "import ", "from "]

/-- `execute_multiline_code`: execute the block's statements (globals = the
working namespace, fresh locals), then, when the last non-empty line is not
excluded by keyword, try to evaluate it as an expression and return its
value; a failure of that trailing evaluation is swallowed and the function
returns `None` (the already-completed statement execution stands).  The
returned locals dict carries the block's new top-level bindings. -/
def executeMultilineCode (ns : Env) (code : String) : Except String (Env × PyVal) := do
  let stmts ← parseBlock code
  let r ← execStmts evalFuel ns [] stmts
  let ls := splitLines (pyStrip code)
  let lastLine := pyStrip (ls.getLastD "")
  if lastLine != "" && !(startsWithAny lastLine kwExclLast) then
    match pyEval ns r.1 lastLine with
    | .ok v => .ok (r.1, v)
    | .error _ => .ok (r.1, .none)
  else .ok (r.1, .none)

/-! ## The old tree's recalculation loop
(`recalculate_changed_lines`, `src/old/calculator.py` lines 2520-2600) -/

/-- The old tree's assignment dispatch tests the comparison operators only
in the text before the first `=` (`code_block.split('=')[0]`); that prefix
never contains `=`, so the guard can never fire — transcribed verbatim. -/
def oldAssignCond (code : String) : Bool :=
  strContainsChar code '=' &&
    !(cmpOps.any (fun op => containsSub (splitFirst code '=').1 op))

def stepOld (p : Nat) (acc : Env × Env × List (Nat × String)) (item : ProcItem) :
    Env × Env × List (Nat × String) :=
  let code := item.code
  if pyStrip code == "" || strStartsWith (pyStrip code) "#" then acc
  else
    let ns := envUpdate acc.1 acc.2.1
    let vars := acc.2.1
    let results := acc.2.2
    if item.isMultiline then
      match executeMultilineCode ns code with
      | .ok r =>
        let vars' := envUpdate vars r.1
        let entry := if r.2.isNone then "executed" else formatResultOld p r.2
        (ns, vars', results ++ [(item.lineNum, entry)])
      | .error e => (ns, vars, results ++ [(item.lineNum, "Error: " ++ e)])
    else
      if oldAssignCond code then
        let name := pyStrip (splitFirst code '=').1
        match pyEval [] ns (pyStrip (splitFirst code '=').2) with
        | .ok v =>
          (envSet ns name v, envSet vars name v,
           results ++ [(item.lineNum, name ++ " = " ++ formatResultOld p v)])
        | .error e => (ns, vars, results ++ [(item.lineNum, "Error: " ++ e)])
      else
        match pyEval [] ns code with
        | .ok v => (ns, vars, results ++ [(item.lineNum, formatResultOld p v)])
        | .error e => (ns, vars, results ++ [(item.lineNum, "Error: " ++ e)])

/-- The old tree's full pass: reset the namespace to the base one, segment,
then fold over the units (`self.namespace.update(self.variables)` runs at
the start of every non-skipped unit).  Returns the final namespace, variable
store and line-result map. -/
def recalcOld (p : Nat) (base : Env) (text : String) :
    Env × Env × List (Nat × String) :=
  let items := processMultilineStatements (splitLines text)
  items.foldl (stepOld p) (base, [], [])

/-! ## Claim-side reference predicates

These follow the words of the specification, to be compared with the
definitions transcribed from the code. -/

/-- Claim C1's dispatch condition, following the spec's words: the text
contains an `=` that is not part of one of the comparison operators
`==`, `!=`, `<=`, `>=` (i.e. neither immediately preceded by `=`, `!`, `<`,
`>` nor immediately followed by `=`). -/
def hasPlainEqAux : Option Char → List Char → Bool
  | _, [] => false
  | prev, c :: rest =>
    if c == '=' then
      (!(prev == some '=' || prev == some '!' || prev == some '<' ||
         prev == some '>') && !(rest.head? == some '=')) ||
        hasPlainEqAux (some c) rest
    else hasPlainEqAux (some c) rest

def hasPlainEq (s : String) : Bool := hasPlainEqAux Option.none s.toList

/-- Claim C5's dispatch condition, following the spec's words:
`|v| > 1e10` or `0 < |v| < 1e-4`. -/
def specSciCond (q : ℚ) : Prop :=
  |q| > qpow10 10 ∨ (0 < |q| ∧ |q| < qpow10 (-4))

/-! ## Shared helper lemmas -/

theorem formatListOld_eq_map (p : Nat) (xs : List PyVal) :
    formatListOld p xs = xs.map (formatResultOld p) := by
  induction xs with
  | nil => rfl
  | cons v vs ih => simp [formatListOld, ih]

theorem recalculate_base (p : Nat) (st : CalcState) (text : String) :
    (recalculate p st text).base = st.base := rfl

/-- A recalculation pass reads nothing of the previous pass but the base
namespace: the working namespace is reset to a copy of it and the variable
store and line-result map are cleared before any unit runs. -/
theorem recalculate_depends_only_on_base (p : Nat) (st st' : CalcState)
    (text : String) (h : st.base = st'.base) :
    recalculate p st text = recalculate p st' text := by
  simp [recalculate, h]

/-- The per-line loop decomposes around any split of the document: the
entries for `xs ++ ys` are the entries for `xs` followed by the entries for
`ys` computed from the state the `xs` prefix produced, with line numbers
offset by `xs.length`. -/
theorem recalcAuxCur_append (p : Nat) (xs : List String) :
    ∀ (i : Nat) (ns vars : Env) (ys : List String),
      recalcAuxCur p i ns vars (xs ++ ys) =
        ((recalcAuxCur p i ns vars xs).1 ++
           (recalcAuxCur p (i + xs.length)
             (recalcAuxCur p i ns vars xs).2.1
             (recalcAuxCur p i ns vars xs).2.2 ys).1,
         (recalcAuxCur p (i + xs.length)
           (recalcAuxCur p i ns vars xs).2.1
           (recalcAuxCur p i ns vars xs).2.2 ys).2) := by
  induction xs with
  | nil =>
    intro i ns vars ys
    simp [recalcAuxCur]
  | cons l ls ih =>
    intro i ns vars ys
    have harith : i + (ls.length + 1) = (i + 1) + ls.length := by omega
    simp only [List.cons_append, recalcAuxCur, List.length_cons, harith,
      List.append_eq]
    rw [ih]
    cases (processLineCur p ns vars l).2.2 <;> simp

/-! ## Claim C1 -/

/-- C1, counterexample.  The claim says a single-line unit is treated as an
assignment whenever its text contains an `=` that is not itself part of a
comparison operator.  The line `x = 1 <= 2` contains such an `=` (and its
right-hand side evaluates fine, to `True`), yet the engine evaluates the
whole line as an expression — the code's test rejects a line containing a
comparison operator anywhere — which is a syntax error: the entry is an
error string, nothing is bound, and the namespaces are untouched. -/
theorem claim1_counterexample :
    hasPlainEq "x = 1 <= 2" = true ∧
    pyEval [] [] (pyStrip (splitFirst "x = 1 <= 2" '=').2) = .ok (.bool true) ∧
    processLineCur 6 [] [] "x = 1 <= 2" =
      ([], [], some "Error: invalid syntax") ∧
    some "Error: invalid syntax" ≠ some ("x" ++ " = " ++ "True") := by
  refine ⟨rfl, rfl, rfl, by decide⟩

/-- C1, amended: a single-line unit is treated as an assignment exactly when
its text contains an `=` AND none of `==`, `!=`, `<=`, `>=` occurs anywhere
in the text (not merely when some `=` stands outside a comparison operator).
In that case the text is split once at the first `=`, the right-hand side is
evaluated against the working namespace, and on success the stripped
left-hand text is bound in the working namespace and the variable store with
entry `name = value`; any other non-blank, non-comment single-line unit is
evaluated as a plain expression. -/
theorem claim1_assignment_dispatch (p : Nat) (ns vars : Env) (line : String)
    (h : lineBlankOrComment line = false) :
    (assignCond line = true →
      processLineCur p ns vars line =
        match pyEval [] ns (pyStrip (splitFirst line '=').2) with
        | .ok v =>
          (envSet ns (pyStrip (splitFirst line '=').1) v,
           envSet vars (pyStrip (splitFirst line '=').1) v,
           some (pyStrip (splitFirst line '=').1 ++ " = " ++ formatResultCur p v))
        | .error e => (ns, vars, some ("Error: " ++ e))) ∧
    (assignCond line = false →
      processLineCur p ns vars line =
        match pyEval [] ns line with
        | .ok v =>
          (ns, vars, if v.isNone then Option.none else some (formatResultCur p v))
        | .error e => (ns, vars, some ("Error: " ++ e))) := by
  constructor
  · intro hc
    simp only [processLineCur, evalUnitCur, h, hc, Bool.false_eq_true,
      if_false, if_true]
    cases pyEval [] ns (pyStrip (splitFirst line '=').2) <;> rfl
  · intro hc
    simp only [processLineCur, evalUnitCur, h, hc, Bool.false_eq_true,
      if_false, if_true]
    cases pyEval [] ns line <;> rfl

/-- Witness for C1's amended theorem: the assignment arm at `a = 1+1`, the
expression arm at `2 * 3`. -/
theorem claim1_assignment_dispatch_witness :
    processLineCur 6 [] [] "a = 1+1" =
      ([("a", .int 2)], [("a", .int 2)], some "a = 2") ∧
    processLineCur 6 [] [] "2 * 3" = ([], [], some "6") := by
  constructor
  · have h := (claim1_assignment_dispatch 6 [] [] "a = 1+1" rfl).1 rfl
    rw [h]
    rfl
  · have h := (claim1_assignment_dispatch 6 [] [] "2 * 3" rfl).2 rfl
    rw [h]
    rfl

/-! ## Claim C2 -/

/-- C2: the three-line document `def f(n): / return n * 2 / f(3)` segments
into exactly one Block unit anchored at line 0; running the old tree's pass
on it yields the single entry `0 ↦ "6"` (the trailing bare expression is
evaluated against the post-execution namespace); the binding `f` is in the
variable store afterwards, and a unit following the block can call it (the
extended document also shows `3 ↦ "10"`).  Finally, when the trailing line
of a block is not evaluable as an expression (`x = f(3)`: its evaluation is
a syntax error for every namespace), statement execution still counts: the
unit's entry is `"executed"`, not an error. -/
theorem claim2_block_unit :
    processMultilineStatements ["def f(n):", "    return n * 2", "f(3)"] =
      [⟨0, "def f(n):\n    return n * 2\nf(3)", true⟩] ∧
    (recalcOld 6 [] "def f(n):\n    return n * 2\nf(3)").2.2 = [(0, "6")] ∧
    (envGet (recalcOld 6 [] "def f(n):\n    return n * 2\nf(3)").2.1 "f").isSome
      = true ∧
    (recalcOld 6 [] "def f(n):\n    return n * 2\nf(3)\nf(5)").2.2 =
      [(0, "6"), (3, "10")] ∧
    (∀ g l : Env, pyEval g l "x = f(3)" = .error "invalid syntax") ∧
    ((executeMultilineCode [] "def f(n):\n    return n * 2\nx = f(3)").map
      (fun r => r.2.isNone)) = .ok true ∧
    (recalcOld 6 [] "def f(n):\n    return n * 2\nx = f(3)").2.2 =
      [(0, "executed")] := by
  exact ⟨rfl, rfl, rfl, rfl, fun g l => rfl, rfl, rfl⟩

/-! ## Claim C3 -/

/-- C3: a failing unit does not abort the pass.  If a line's evaluation
fails, its entry in the line-result map is the formatted error string, the
working namespace and variable store passed on are exactly the pre-failure
ones, and every subsequent line is still processed (the remainder of the
pass is the full pass over the remaining lines).  No exception escapes: the
pass is a total function, failures only ever become `Error: ...` entries. -/
theorem claim3_failure_isolation (p i : Nat) (ns vars : Env) (l : String)
    (ls : List String) (msg : String)
    (h : evalUnitCur ns l = .failed msg) :
    recalcAuxCur p i ns vars (l :: ls) =
      ((i, "Error: " ++ msg) :: (recalcAuxCur p (i + 1) ns vars ls).1,
       (recalcAuxCur p (i + 1) ns vars ls).2) := by
  simp [recalcAuxCur, processLineCur, h, applyOutcomeCur]

/-- Witness for C3: line 0 (`1 +`) is a syntax error, line 1 (`2+2`) is
still evaluated, with the empty pre-failure namespace. -/
theorem claim3_failure_isolation_witness :
    evalUnitCur [] "1 +" = .failed "invalid syntax" ∧
    recalcAuxCur 6 0 [] [] ["1 +", "2+2"] =
      ([(0, "Error: invalid syntax"), (1, "4")], [], []) := by
  constructor
  · rfl
  · rw [claim3_failure_isolation 6 0 [] [] "1 +" ["2+2"] "invalid syntax" rfl]
    rfl

/-! ## Claim C4 -/

/-- C4: recalculating `x = 2 / y = x + 3 / y` produces exactly the entries
`0 ↦ "x = 2"`, `1 ↦ "y = 5"`, `2 ↦ "5"`: each later line sees the bindings
established by the strictly earlier lines of the same pass. -/
theorem claim4_three_line_document :
    (recalculate 6 ⟨[], [], [], []⟩ "x = 2\ny = x + 3\ny").lineResults =
      [(0, "x = 2"), (1, "y = 5"), (2, "5")] := rfl

/-! ## Claim C5 -/

/-- C5: a float is formatted in scientific notation exactly when
`|v| > 1e10` or `0 < |v| < 1e-4` (the code's `result != 0` is the spec's
`0 < |v|`), and in `%g`-style general notation otherwise; `1e12` at the
default precision 6 renders as `"1.000000e+12"` and `1/3` as `"0.333333"`.
As the claim's own example fixes, "scientific notation at `precision`
significant digits" is Python's `%.{p}e`, whose mantissa carries `precision`
digits after the decimal point. -/
theorem claim5_float_style (q : ℚ) (p : Nat) :
    (specSciCond q → fmtFloat p q = fmtE p q) ∧
    (¬specSciCond q → fmtFloat p q = fmtG p q) ∧
    fmtFloat 6 ((10 : ℚ) ^ 12) = "1.000000e+12" ∧
    fmtFloat 6 ((1 : ℚ) / 3) = "0.333333" := by
  have hiff : specSciCond q ↔ (|q| > qpow10 10 ∨ (|q| < qpow10 (-4) ∧ q ≠ 0)) := by
    unfold specSciCond
    constructor
    · rintro (h | ⟨h0, h4⟩)
      · exact Or.inl h
      · exact Or.inr ⟨h4, abs_pos.mp h0⟩
    · rintro (h | ⟨h4, h0⟩)
      · exact Or.inl h
      · exact Or.inr ⟨abs_pos.mpr h0, h4⟩
  refine ⟨?_, ?_, by with_unfolding_all rfl, by with_unfolding_all rfl⟩
  · intro h
    rw [fmtFloat, if_pos (hiff.mp h)]
  · intro h
    rw [fmtFloat, if_neg (fun hc => h (hiff.mpr hc))]

/-- Witness for C5: the scientific arm at `1e12`, the general arm at `1/2`. -/
theorem claim5_float_style_witness :
    specSciCond ((10 : ℚ) ^ 12) ∧
    fmtFloat 6 ((10 : ℚ) ^ 12) = fmtE 6 ((10 : ℚ) ^ 12) ∧
    ¬specSciCond ((1 : ℚ) / 2) ∧
    fmtFloat 6 ((1 : ℚ) / 2) = fmtG 6 ((1 : ℚ) / 2) := by
  have hq1 : qpow10 10 = (10 : ℚ) ^ 10 := by with_unfolding_all rfl
  have hq2 : qpow10 (-4) = 1 / (10 : ℚ) ^ 4 := by with_unfolding_all rfl
  have h1 : specSciCond ((10 : ℚ) ^ 12) := by
    refine Or.inl ?_
    rw [hq1, abs_of_pos (by positivity)]
    norm_num
  have h2 : ¬specSciCond ((1 : ℚ) / 2) := by
    rintro (h | ⟨h0, h4⟩)
    · rw [hq1, abs_of_pos (by norm_num)] at h
      norm_num at h
    · rw [hq2, abs_of_pos (by norm_num)] at h4
      norm_num at h4
  exact ⟨h1, (claim5_float_style _ 6).1 h1, h2,
    (claim5_float_style _ 6).2.1 h2⟩

/-! ## Claim C6 -/

/-- C6, counterexample.  The claim says that when the real part is zero the
imaginary part is formatted *recursively* with suffix `j`.  The code instead
formats it directly with `%g`: at `0 + 1e12j` it prints `"1e+12j"`, while
the recursive (float-arm) formatting of `1e12` is `"1.000000e+12"`, so the
recursive rendering would be `"1.000000e+12j"`. -/
theorem claim6_complex_counterexample :
    formatResultCur 6 (.complex 0 ((10 : ℚ) ^ 12)) = "1e+12j" ∧
    formatResultCur 6 (.float ((10 : ℚ) ^ 12)) = "1.000000e+12" ∧
    ("1e+12j" : String) ≠ "1.000000e+12" ++ "j" := by
  exact ⟨by with_unfolding_all rfl, by with_unfolding_all rfl, by decide⟩

/-- C6, amended: when the imaginary part is exactly zero the real part is
formatted recursively (the float arm); when the real part is exactly zero
the imaginary part is formatted in `%g` general notation — not recursively —
with suffix `j`; otherwise `(real+imagj)` with both parts in `%g` notation
and the explicit `+` exactly when the imaginary part is non-negative; so
`3+4j ↦ "(3+4j)"`, `0+5j ↦ "5j"`, `5+0j ↦ "5"`. -/
theorem claim6_complex_formatting (re im : ℚ) (p : Nat) :
    (im = 0 → formatResultCur p (.complex re im) = formatResultCur p (.float re)) ∧
    (re = 0 → im ≠ 0 → formatResultCur p (.complex re im) = fmtG p im ++ "j") ∧
    (re ≠ 0 → im ≠ 0 → formatResultCur p (.complex re im) =
      "(" ++ fmtG p re ++ (if 0 ≤ im then "+" else "") ++ fmtG p im ++ "j)") ∧
    formatResultCur 6 (.complex 3 4) = "(3+4j)" ∧
    formatResultCur 6 (.complex 0 5) = "5j" ∧
    formatResultCur 6 (.complex 5 0) = "5" := by
  refine ⟨?_, ?_, ?_, by with_unfolding_all rfl, by with_unfolding_all rfl,
    by with_unfolding_all rfl⟩
  · intro h
    simp [formatResultCur, h]
  · intro hre him
    simp [formatResultCur, hre, him]
  · intro hre him
    simp [formatResultCur, hre, him]

/-- Witness for C6's amended theorem: all three arms at concrete inputs. -/
theorem claim6_complex_formatting_witness :
    formatResultCur 6 (.complex 7 0) = formatResultCur 6 (.float 7) ∧
    formatResultCur 6 (.complex 0 ((10 : ℚ) ^ 12)) = fmtG 6 ((10 : ℚ) ^ 12) ++ "j" ∧
    formatResultCur 6 (.complex 3 (-4)) =
      "(" ++ fmtG 6 (3 : ℚ) ++ (if (0 : ℚ) ≤ -4 then "+" else "") ++ fmtG 6 (-4 : ℚ) ++ "j)" := by
  refine ⟨(claim6_complex_formatting 7 0 6).1 rfl, ?_, ?_⟩
  · exact (claim6_complex_formatting 0 ((10 : ℚ) ^ 12) 6).2.1 rfl (by norm_num)
  · exact (claim6_complex_formatting 3 (-4) 6).2.2.1 (by norm_num) (by norm_num)

/-! ## Claim C7 -/

/-- C7, counterexample.  The claim renders a sequence of length > 10 as the
first three formatted elements followed by `, ... (N items)` with no
surrounding brackets; the code wraps that truncated preview in `[ ]` as
well: a 12-element list prints `"[1, 2, 3, ... (12 items)]"`. -/
theorem claim7_sequence_counterexample :
    formatResultOld 6 (.list [.int 1, .int 2, .int 3, .int 4, .int 5, .int 6,
      .int 7, .int 8, .int 9, .int 10, .int 11, .int 12]) =
      "[1, 2, 3, ... (12 items)]" ∧
    ("[1, 2, 3, ... (12 items)]" : String) ≠ "1, 2, 3, ... (12 items)" := by
  exact ⟨rfl, by decide⟩

/-- C7, amended: a non-string sequence of length > 10 is rendered as the
first three elements, each formatted recursively, joined by `, `, followed
by `, ... (N items)`, the whole wrapped in `[ ]`; one of length ≤ 10 as all
elements formatted recursively, joined by `, `, wrapped in `[ ]`.  The last
conjunct states that the per-element strings are exactly the recursive
formattings. -/
theorem claim7_sequence_formatting (p : Nat) (xs : List PyVal) :
    (10 < xs.length →
      formatResultOld p (.list xs) =
        "[" ++ String.intercalate ", " ((xs.map (formatResultOld p)).take 3)
          ++ ", ... (" ++ natStr xs.length ++ " items)]") ∧
    (xs.length ≤ 10 →
      formatResultOld p (.list xs) =
        "[" ++ String.intercalate ", " (xs.map (formatResultOld p)) ++ "]") := by
  constructor
  · intro h
    rw [formatResultOld, if_pos h, formatListOld_eq_map]
  · intro h
    rw [formatResultOld, if_neg (by omega), formatListOld_eq_map]

/-- Witness for C7's amended theorem: a 12-element and a 2-element list. -/
theorem claim7_sequence_formatting_witness :
    formatResultOld 6 (.list [.int 1, .int 2, .int 3, .int 4, .int 5, .int 6,
      .int 7, .int 8, .int 9, .int 10, .int 11, .int 12]) =
      "[" ++ String.intercalate ", "
        ((([.int 1, .int 2, .int 3, .int 4, .int 5, .int 6, .int 7, .int 8,
            .int 9, .int 10, .int 11, .int 12] : List PyVal).map
          (formatResultOld 6)).take 3)
        ++ ", ... (" ++ natStr 12 ++ " items)]" ∧
    formatResultOld 6 (.list [.int 1, .int 2]) =
      "[" ++ String.intercalate ", "
        (([.int 1, .int 2] : List PyVal).map (formatResultOld 6)) ++ "]" := by
  exact ⟨(claim7_sequence_formatting 6 _).1 (by simp),
    (claim7_sequence_formatting 6 _).2 (by simp)⟩

/-! ## Claim C8 -/

/-- C8: for a document of independent single-line arithmetic expressions
with no assignments, recalculating twice yields the same line-result map as
recalculating once — the second pass starts from a fresh copy of the base
namespace, which recalculation never modifies, and reads nothing else of the
state the first pass left behind. -/
theorem claim8_idempotent (p : Nat) (st : CalcState) (text : String)
    (h : ∀ l ∈ splitLines text, strContainsChar l '=' = false) :
    (recalculate p (recalculate p st text) text).lineResults =
      (recalculate p st text).lineResults := by
  rw [recalculate_depends_only_on_base p (recalculate p st text) st text
    (recalculate_base p st text)]

/-- Witness for C8: the assignment-free document `1+2 / 3*4`. -/
theorem claim8_idempotent_witness :
    (∀ l ∈ splitLines "1+2\n3*4", strContainsChar l '=' = false) ∧
    (recalculate 6 (recalculate 6 ⟨[], [], [], []⟩ "1+2\n3*4")
        "1+2\n3*4").lineResults =
      (recalculate 6 ⟨[], [], [], []⟩ "1+2\n3*4").lineResults ∧
    (recalculate 6 ⟨[], [], [], []⟩ "1+2\n3*4").lineResults =
      [(0, "3"), (1, "12")] := by
  exact ⟨by decide, claim8_idempotent 6 ⟨[], [], [], []⟩ "1+2\n3*4" (by decide),
    rfl⟩

/-! ## Claim C9 -/

/-- C9, counterexample.  The claim predicts an undefined-name error entry on
the dependent line after any `deleteVariable`.  But recalculation replays
the whole document: when an earlier line rebinds the variable (document
`x = 2 / x + 1`), the dependent line's entry after deleting `x` is the
recomputed value `"3"` — not an error string. -/
theorem claim9_counterexample :
    (envGet (recalculate 6 ⟨[], [], [], []⟩ "x = 2\nx + 1").vars "x").isSome
      = true ∧
    (deleteVariable 6 (recalculate 6 ⟨[], [], [], []⟩ "x = 2\nx + 1") "x"
        "x = 2\nx + 1").lineResults = [(0, "x = 2"), (1, "3")] ∧
    strStartsWith "3" "Error" = false := by
  exact ⟨rfl, rfl, rfl⟩

/-- C9, amended: deleting a stored variable triggers a full recalculation
whose results are exactly those of a fresh evaluation of the document
against the base namespace — no stale result survives (first conjunct, for
every prior state, variable and document).  Consequently, for every
document, split it anywhere as `pre ++ line :: post`: if evaluating `line`
in the namespace the `pre` lines build from the base fails with the
undefined-name error for the deleted variable — i.e. the line reads the
variable and neither the base namespace nor any earlier line supplies it —
then the recalculated map carries that error string as the line's entry
(second conjunct), whatever value the variable previously had. -/
theorem claim9_no_stale_results (p : Nat) (st : CalcState) (name text : String)
    (hx : (envGet st.vars name).isSome = true) :
    (deleteVariable p st name text).lineResults =
      (recalculate p ⟨st.base, [], [], []⟩ text).lineResults ∧
    (∀ pre line post, splitLines text = pre ++ line :: post →
      evalUnitCur (recalcAuxCur p 0 st.base [] pre).2.1 line =
        .failed ("name '" ++ name ++ "' is not defined") →
      (pre.length, "Error: name '" ++ name ++ "' is not defined") ∈
        (deleteVariable p st name text).lineResults) := by
  have h1 : deleteVariable p st name text =
      recalculate p
        { st with ns := envDel st.ns name, vars := envDel st.vars name } text := by
    simp [deleteVariable, hx]
  have h2 : (deleteVariable p st name text).lineResults =
      (recalculate p ⟨st.base, [], [], []⟩ text).lineResults := by
    rw [h1]
    exact congrArg CalcState.lineResults
      (recalculate_depends_only_on_base p
        { st with ns := envDel st.ns name, vars := envDel st.vars name }
        ⟨st.base, [], [], []⟩ text rfl)
  refine ⟨h2, ?_⟩
  intro pre line post hsplit hfail
  rw [h2]
  show _ ∈ (recalcAuxCur p 0 st.base [] (splitLines text)).1
  rw [hsplit, recalcAuxCur_append]
  refine List.mem_append_right _ ?_
  have hstep : recalcAuxCur p (0 + pre.length)
      (recalcAuxCur p 0 st.base [] pre).2.1
      (recalcAuxCur p 0 st.base [] pre).2.2 (line :: post) =
      ((pre.length, "Error: " ++ ("name '" ++ name ++ "' is not defined")) ::
        (recalcAuxCur p (0 + pre.length + 1)
          (recalcAuxCur p 0 st.base [] pre).2.1
          (recalcAuxCur p 0 st.base [] pre).2.2 post).1,
       (recalcAuxCur p (0 + pre.length + 1)
         (recalcAuxCur p 0 st.base [] pre).2.1
         (recalcAuxCur p 0 st.base [] pre).2.2 post).2) := by
    simp [recalcAuxCur, processLineCur, hfail, applyOutcomeCur]
  rw [hstep]
  exact List.mem_cons_self _ _

/-- Witness for C9's amended theorem: prior state holding `x = 5` and stale
entries, document `y = 1 / x + 1` whose first line does not rebind `x`,
empty base: line 1 becomes the undefined-name error entry. -/
theorem claim9_no_stale_results_witness :
    (deleteVariable 6 ⟨[], [("x", .int 5)], [("x", .int 5)], [(0, "6"), (1, "6")]⟩
        "x" "y = 1\nx + 1").lineResults =
      [(0, "y = 1"), (1, "Error: name 'x' is not defined")] ∧
    (1, "Error: name 'x' is not defined") ∈
      (deleteVariable 6 ⟨[], [("x", .int 5)], [("x", .int 5)], [(0, "6"), (1, "6")]⟩
        "x" "y = 1\nx + 1").lineResults := by
  refine ⟨rfl, ?_⟩
  have h := (claim9_no_stale_results 6
    ⟨[], [("x", .int 5)], [("x", .int 5)], [(0, "6"), (1, "6")]⟩
    "x" "y = 1\nx + 1" rfl).2 ["y = 1"] "x + 1" [] rfl rfl
  simpa using h

/-! ## Claim C10 -/

/-- C10: in the current tree, a single-line expression unit that evaluates
to `None` writes no entry at all into the line-result map — the line's
processing returns no entry and leaves the namespaces unchanged, and the
pass's entry list for a document starting with such a line is exactly the
entry list for the remaining lines. -/
theorem claim10_none_suppressed (p i : Nat) (ns vars : Env) (line : String)
    (ls : List String)
    (h1 : lineBlankOrComment line = false)
    (h2 : assignCond line = false)
    (h3 : pyEval [] ns line = .ok .none) :
    processLineCur p ns vars line = (ns, vars, Option.none) ∧
    (recalcAuxCur p i ns vars (line :: ls)).1 =
      (recalcAuxCur p (i + 1) ns vars ls).1 := by
  have hp : processLineCur p ns vars line = (ns, vars, Option.none) := by
    simp [processLineCur, evalUnitCur, h1, h2, h3, applyOutcomeCur, PyVal.isNone]
  exact ⟨hp, by simp [recalcAuxCur, hp]⟩

/-- Witness for C10: the line `None` evaluates to `None` and contributes no
entry; the following line still gets its own. -/
theorem claim10_none_suppressed_witness :
    pyEval [] [] "None" = .ok .none ∧
    (recalcAuxCur 6 0 [] [] ["None", "1+1"]).1 = [(1, "2")] := by
  refine ⟨rfl, ?_⟩
  rw [(claim10_none_suppressed 6 0 [] [] "None" ["1+1"] rfl rfl rfl).2]
  rfl

end CalcTerm
